import Mathlib

/-!
Shallow embedding of `docker-supervise` (src/supervise.go): a container
supervisor that, on an engine "die" event, inspects the dead instance,
looks its name up in a configuration registry, and (if supervised)
removes the dead instance, creates a fresh one from the stored document,
and starts it with the host configuration captured from the dead instance.

Go strings are modelled as `List Char`; the launch-configuration document
and the host configuration are engine-defined opaque values, modelled as
opaque tokens of the same type.  Fallible engine calls are modelled as
oracle functions inside an `Engine` record; process termination
(`log.Fatalf` / `log.Fatalln`) and a Go panic are explicit outcomes.
-/

namespace DockerSupervise

/-- Go strings, as lists of characters. -/
abbrev GoStr := List Char

/-- Opaque launch-configuration document (`container.Config` in the source). -/
abbrev Config := GoStr

/-- Opaque runtime host configuration (`container.HostConfig` in the source). -/
abbrev HostConfig := GoStr

/-- The status tag `"die"` checked at supervise.go line 139. -/
def dieStatus : GoStr := ['d', 'i', 'e']

/-- Result of `client.InspectContainer`: the fields of `docker.Container`
that supervise.go reads (`ID`, `Name`, `Config`, `HostConfig`). -/
structure Container where
  id : GoStr
  name : GoStr
  config : Config
  hostConfig : HostConfig
deriving DecidableEq, Repr

/-- One event from the engine feed (`docker.APIEvents`): supervise.go reads
only `ID` and `Status`. -/
structure APIEvent where
  id : GoStr
  status : GoStr
deriving DecidableEq, Repr

/-- Oracle for the container engine: each fallible call of the source is a
function giving its outcome.  `inspect` fails by returning `none`;
`create` returns the new instance id on success; `removeOk` / `startOk`
give whether `RemoveContainer` / `StartContainer` succeed. -/
structure Engine where
  inspect : GoStr → Option Container
  removeOk : GoStr → Bool
  create : GoStr → Config → Option GoStr
  startOk : GoStr → HostConfig → Bool

/-- Modelled from the spec: the ConfigStore source file is not under src/;
§4.2 specifies `get(name)` as a pure point lookup into the in-memory
mapping, with no side effects.  The registry is that mapping. -/
abbrev Registry := GoStr → Option Config

/-- Modelled from the spec: §4.2 specifies `add(name, document)` as an
unconditional upsert into the in-memory mapping. -/
def storeAdd (reg : Registry) (n : GoStr) (d : Config) : Registry :=
  fun k => if k = n then some d else reg k

/-- An engine call issued by the program, in the order issued. -/
inductive EngineCall
  | inspect (id : GoStr)
  | remove (id : GoStr)
  | create (name : GoStr) (conf : Config)
  | start (id : GoStr) (hc : HostConfig)
deriving DecidableEq, Repr

/-- Whether a call writes engine state (`inspect` is the only read). -/
def EngineCall.isWrite : EngineCall → Bool
  | .inspect _ => false
  | _ => true

/-- Log lines the program emits (identified by call site, payload elided). -/
inductive LogEntry
  | inspectFailed (id : GoStr)
  | removeFailed
  | createFailed
  | startFailed
  | warnNoPersistDir
  | warnLoadFailed
  | fatalMonitorClosed
deriving DecidableEq, Repr

/-- Model of `container.Name[1:]` at supervise.go line 146: Go string
slicing `s[1:]` panics (index out of range) when `len(s) = 0`, and
otherwise unconditionally drops the first byte.  `none` models the panic. -/
def supervisedName : GoStr → Option GoStr
  | [] => none
  | _ :: rest => some rest

/-- What processing one event produced: the engine calls issued in order,
the log lines emitted, and whether the goroutine panicked. -/
structure EventOutcome where
  calls : List EngineCall
  logs : List LogEntry
  panicked : Bool
deriving DecidableEq, Repr

/-- One iteration of the `monitorEvents` loop body (supervise.go
lines 138-171), as a pure function of the engine oracle, the registry
lookup and the event.  Mirrors the source exactly: a non-"die" status does
nothing; inspect failure logs and skips; the name is sliced with `[1:]`;
a registry miss skips silently; a `RemoveContainer` failure is logged but
does NOT abort the iteration (no `continue` at line 157); a
`CreateContainer` failure logs and skips before any start; a
`StartContainer` failure is only logged. -/
def processEvent (eng : Engine) (get : Registry) (ev : APIEvent) : EventOutcome :=
  if ev.status = dieStatus then
    match eng.inspect ev.id with
    | none => ⟨[.inspect ev.id], [.inspectFailed ev.id], false⟩
    | some container =>
      match supervisedName container.name with
      | none => ⟨[.inspect ev.id], [], true⟩
      | some name =>
        match get name with
        | none => ⟨[.inspect ev.id], [], false⟩
        | some conf =>
          let removeLogs : List LogEntry :=
            if eng.removeOk container.id then [] else [.removeFailed]
          match eng.create name conf with
          | none =>
            ⟨[.inspect ev.id, .remove container.id, .create name conf],
             removeLogs ++ [.createFailed], false⟩
          | some newId =>
            let startLogs : List LogEntry :=
              if eng.startOk newId container.hostConfig then [] else [.startFailed]
            ⟨[.inspect ev.id, .remove container.id, .create name conf,
              .start newId container.hostConfig],
             removeLogs ++ startLogs, false⟩
  else ⟨[], [], false⟩

/-- Final fate of the `monitorEvents` goroutine on a finite event feed:
either a Go panic mid-loop, or — once the channel closes — the
`log.Fatalln` at supervise.go line 173, which terminates the process. -/
inductive MonitorOutcome
  | panicked (calls : List EngineCall) (logs : List LogEntry)
  | fatal (calls : List EngineCall) (logs : List LogEntry)
deriving DecidableEq, Repr

/-- Prefix an already-issued call/log trace onto a later outcome. -/
def MonitorOutcome.prepend (cs : List EngineCall) (ls : List LogEntry) :
    MonitorOutcome → MonitorOutcome
  | .panicked c l => .panicked (cs ++ c) (ls ++ l)
  | .fatal c l => .fatal (cs ++ c) (ls ++ l)

/-- The `monitorEvents` loop (supervise.go lines 137-174) over a finite
feed: events are consumed strictly in order; when the channel closes the
trailing `log.Fatalln` fires. -/
def monitorEvents (eng : Engine) (get : Registry) : List APIEvent → MonitorOutcome
  | [] => .fatal [] [.fatalMonitorClosed]
  | ev :: rest =>
    let o := processEvent eng get ev
    if o.panicked then .panicked o.calls o.logs
    else .prepend o.calls o.logs (monitorEvents eng get rest)

/-- Outcomes of the fallible steps `main` takes before serving
(supervise.go lines 37-73): whether `docker.NewClient` succeeds, whether
`os.Stat` finds the persistence directory, whether `confStore.Load`
succeeds, and whether `AddEventListener` succeeds. -/
structure MainEnv where
  clientOk : Bool
  persistDirExists : Bool
  loadOk : Bool
  subscribeOk : Bool
deriving DecidableEq, Repr

/-- How far `main`'s startup gets: `log.Fatalf` on client-connection
failure (line 44), `log.Fatalf` on event-listener failure (line 70), or
running with the chosen persister (`none` = memory-only mode). -/
inductive StartupResult
  | fatalClient
  | fatalSubscribe (persister : Option GoStr)
  | running (persister : Option GoStr)
deriving DecidableEq, Repr

/-- Default persistence directory `PERSIST_DIR = "containers"`. -/
def persistDirDefault : GoStr :=
  ['c', 'o', 'n', 't', 'a', 'i', 'n', 'e', 'r', 's']

/-- The startup sequence of `main` (supervise.go lines 37-73), as a pure
function of the step outcomes: connect to the engine (fatal on failure);
stat the persistence directory, warning and choosing no persister when
absent; construct the store and load (load failure on a present backend
is only a warning); subscribe to the event feed (fatal on failure). -/
def mainStartup (env : MainEnv) : StartupResult × List LogEntry :=
  if !env.clientOk then (.fatalClient, [])
  else
    let persister : Option GoStr :=
      if env.persistDirExists then some persistDirDefault else none
    let dirLogs : List LogEntry :=
      if env.persistDirExists then [] else [.warnNoPersistDir]
    let loadLogs : List LogEntry :=
      if env.persistDirExists && !env.loadOk then [.warnLoadFailed] else []
    if !env.subscribeOk then (.fatalSubscribe persister, dirLogs ++ loadLogs)
    else (.running persister, dirLogs ++ loadLogs)

/-- Model of `strings.Trim(s, "/")`: remove all leading and trailing `/`. -/
def trimSlashes (s : GoStr) : GoStr :=
  ((s.dropWhile fun c => c == '/').reverse.dropWhile fun c => c == '/').reverse

/-- HTTP responses the `POST /` registration handler can produce
(supervise.go lines 86-113). -/
inductive PostResponse
  | badRequestForm
  | badRequestEmptyName
  | seeOther (loc : GoStr)
  | badRequestInspect
  | created (loc : GoStr)
deriving DecidableEq, Repr

/-- Outcome of one `POST /` request: the response, and the `Add` call made
on the store, if any. -/
structure PostOutcome where
  resp : PostResponse
  addCall : Option (GoStr × Config)
deriving DecidableEq, Repr

/-- The `POST /` registration handler (supervise.go lines 86-113), as a
pure function: parse the form; trim the `id` field; reject an empty name;
redirect (303 See Other) to the existing entry when the name is already in
the store, without touching it; otherwise inspect by name (400 on
failure) and `Add` the inspected container's trimmed name with its
config (201 Created). -/
def handlePost (parseOk : Bool) (formId : GoStr) (get : Registry)
    (inspectByName : GoStr → Option Container) : PostOutcome :=
  if !parseOk then ⟨.badRequestForm, none⟩
  else
    let name := trimSlashes formId
    if name = [] then ⟨.badRequestEmptyName, none⟩
    else
      match get name with
      | some _ => ⟨.seeOther ('/' :: name), none⟩
      | none =>
        match inspectByName name with
        | none => ⟨.badRequestInspect, none⟩
        | some container =>
          ⟨.created ('/' :: name), some (trimSlashes container.name, container.config)⟩

/-- The registry mapping after one `POST /` request: unchanged unless the
handler reached `confStore.Add`. -/
def handlePostRegistry (parseOk : Bool) (formId : GoStr) (reg : Registry)
    (inspectByName : GoStr → Option Container) : Registry :=
  match (handlePost parseOk formId reg inspectByName).addCall with
  | none => reg
  | some (n, d) => storeAdd reg n d

/-! Concrete fixtures used to instantiate the theorems below. -/

/-- Fixture: a supervised container name. -/
def nameW : GoStr := ['w']

/-- Fixture: the stored launch-configuration document for `nameW`. -/
def docW : Config := ['d']

/-- Fixture: the host configuration of the dying instance. -/
def hostW : HostConfig := ['H']

/-- Fixture: id of the dying instance. -/
def idI1 : GoStr := ['i', '1']

/-- Fixture: id of the freshly created instance. -/
def idI2 : GoStr := ['i', '2']

/-- Fixture: a death event. -/
def evW : APIEvent := ⟨['e'], dieStatus⟩

/-- Fixture: the dying instance, inspected. -/
def contW : Container := ⟨idI1, '/' :: nameW, ['c'], hostW⟩

/-- Fixture: a registry holding only `(nameW, docW)`. -/
def regW : Registry := fun k => if k = nameW then some docW else none

/-- Fixture: an engine where every call on the happy path succeeds. -/
def engW : Engine :=
  { inspect := fun i => if i = evW.id then some contW else none
    removeOk := fun _ => true
    create := fun n d => if n = nameW ∧ d = docW then some idI2 else none
    startOk := fun _ _ => true }

/-- Fixture: like `engW` but `RemoveContainer` always fails. -/
def engRemoveFail : Engine := { engW with removeOk := fun _ => false }

/-- Fixture: like `engW` but `InspectContainer` always fails. -/
def engInspectFail : Engine := { engW with inspect := fun _ => none }

/-- Fixture: like `engW` but `CreateContainer` always fails. -/
def engCreateFail : Engine := { engW with create := fun _ _ => none }

/-- Fixture: like `engW` but the inspected container has the empty name. -/
def engEmptyName : Engine :=
  { engW with inspect := fun i => if i = evW.id then some ⟨idI1, [], ['c'], hostW⟩ else none }

/-- Fixture: the empty registry. -/
def regEmpty : Registry := fun _ => none

/-! Helper lemmas shared by the claim theorems. -/

/-- Processing a non-panicking event prepends its trace and the loop goes
on with the remaining events. -/
theorem monitorEvents_cons (eng : Engine) (get : Registry) (ev : APIEvent)
    (evs : List APIEvent) (h : (processEvent eng get ev).panicked = false) :
    monitorEvents eng get (ev :: evs) =
      .prepend (processEvent eng get ev).calls (processEvent eng get ev).logs
        (monitorEvents eng get evs) := by
  simp [monitorEvents, h]

/-! Claim theorems. -/

/-- C1: for a death event whose inspect succeeds with id `i1`, a
slash-prefixed name and host configuration `H`, whose stripped name is in
the registry with document `d`, and whose create succeeds with new id
`i2`, the supervisor issues exactly `inspect`, then the writes
`remove i1`, `create n d`, `start i2 H`, in that order and no other
writes; the start uses the host configuration captured from the dying
instance's inspect. -/
theorem scenarioA_exact_calls (eng : Engine) (get : Registry) (ev : APIEvent)
    (i1 n cfg H d i2 : GoStr)
    (hdie : ev.status = dieStatus)
    (hins : eng.inspect ev.id = some ⟨i1, '/' :: n, cfg, H⟩)
    (hget : get n = some d)
    (hcreate : eng.create n d = some i2) :
    (processEvent eng get ev).calls =
      [.inspect ev.id, .remove i1, .create n d, .start i2 H] ∧
    (processEvent eng get ev).calls.filter EngineCall.isWrite =
      [.remove i1, .create n d, .start i2 H] ∧
    (processEvent eng get ev).panicked = false := by
  simp [processEvent, hdie, hins, supervisedName, hget, hcreate, EngineCall.isWrite]

/-- C1 witness: the theorem applied at the concrete fixture. -/
theorem scenarioA_exact_calls_witness :
    engW.inspect evW.id = some ⟨idI1, '/' :: nameW, ['c'], hostW⟩ ∧
    (processEvent engW regW evW).calls =
      [.inspect evW.id, .remove idI1, .create nameW docW, .start idI2 hostW] :=
  ⟨by decide,
   (scenarioA_exact_calls engW regW evW idI1 nameW ['c'] hostW docW idI2
      (by decide) (by decide) (by decide) (by decide)).1⟩

/-- C2 counterexample: with the fixture engine where `RemoveContainer`
fails, the supervisor nevertheless issues the `create` and the `start`
call for that event, contrary to the claim that the event's work is
abandoned with no create and no start. -/
theorem remove_failure_claim_counterexample :
    engRemoveFail.removeOk contW.id = false ∧
    EngineCall.create nameW docW ∈ (processEvent engRemoveFail regW evW).calls ∧
    EngineCall.start idI2 hostW ∈ (processEvent engRemoveFail regW evW).calls := by
  decide

/-- C2 amended: if the remove call fails for a supervised dead instance,
the failure is logged but the event's work is NOT abandoned: the create
call is still issued (and the start call too when create succeeds), the
iteration does not panic, and the loop continues to the next event. -/
theorem remove_failure_logged_but_continues (eng : Engine) (get : Registry)
    (ev : APIEvent) (container : Container) (c : Char) (nrest : GoStr) (d : Config)
    (hdie : ev.status = dieStatus)
    (hins : eng.inspect ev.id = some container)
    (hname : container.name = c :: nrest)
    (hget : get nrest = some d)
    (hrm : eng.removeOk container.id = false) :
    LogEntry.removeFailed ∈ (processEvent eng get ev).logs ∧
    EngineCall.create nrest d ∈ (processEvent eng get ev).calls ∧
    (∀ i2, eng.create nrest d = some i2 →
      EngineCall.start i2 container.hostConfig ∈ (processEvent eng get ev).calls) ∧
    (processEvent eng get ev).panicked = false ∧
    (∀ evs, monitorEvents eng get (ev :: evs) =
      .prepend (processEvent eng get ev).calls (processEvent eng get ev).logs
        (monitorEvents eng get evs)) := by
  have hpanic : (processEvent eng get ev).panicked = false := by
    rcases hcr : eng.create nrest d with _ | i2 <;>
      simp [processEvent, hdie, hins, hname, supervisedName, hget, hrm, hcr]
  refine ⟨?_, ?_, ?_, hpanic, fun evs => monitorEvents_cons eng get ev evs hpanic⟩
  · rcases hcr : eng.create nrest d with _ | i2 <;>
      simp [processEvent, hdie, hins, hname, supervisedName, hget, hrm, hcr]
  · rcases hcr : eng.create nrest d with _ | i2 <;>
      simp [processEvent, hdie, hins, hname, supervisedName, hget, hrm, hcr]
  · intro i2 hcr
    simp [processEvent, hdie, hins, hname, supervisedName, hget, hrm, hcr]

/-- C2 amended witness: the amended theorem applied at the concrete
fixture with a failing remove. -/
theorem remove_failure_logged_but_continues_witness :
    engRemoveFail.removeOk contW.id = false ∧
    LogEntry.removeFailed ∈ (processEvent engRemoveFail regW evW).logs :=
  ⟨by decide,
   (remove_failure_logged_but_continues engRemoveFail regW evW contW '/' nameW docW
      (by decide) (by decide) (by decide) (by decide) (by decide)).1⟩

/-- C3: for a death event whose inspect succeeds but whose stripped name
has no registry entry, the supervisor issues no remove, create or start
(only the inspect), emits no log, does not panic, and the loop proceeds
to the next event. -/
theorem unsupervised_name_ignored (eng : Engine) (get : Registry)
    (ev : APIEvent) (container : Container) (c : Char) (nrest : GoStr)
    (hdie : ev.status = dieStatus)
    (hins : eng.inspect ev.id = some container)
    (hname : container.name = c :: nrest)
    (hget : get nrest = none) :
    (processEvent eng get ev).calls = [.inspect ev.id] ∧
    (processEvent eng get ev).logs = [] ∧
    (processEvent eng get ev).panicked = false ∧
    (∀ evs, monitorEvents eng get (ev :: evs) =
      .prepend [.inspect ev.id] [] (monitorEvents eng get evs)) := by
  have h : processEvent eng get ev = ⟨[.inspect ev.id], [], false⟩ := by
    simp [processEvent, hdie, hins, hname, supervisedName, hget]
  refine ⟨by simp [h], by simp [h], by simp [h], fun evs => ?_⟩
  have := monitorEvents_cons eng get ev evs (by simp [h])
  simpa [h] using this

/-- C3 witness: the theorem applied at the concrete fixture with an empty
registry. -/
theorem unsupervised_name_ignored_witness :
    regEmpty nameW = none ∧
    (processEvent engW regEmpty evW).calls = [.inspect evW.id] :=
  ⟨by decide,
   (unsupervised_name_ignored engW regEmpty evW contW '/' nameW
      (by decide) (by decide) (by decide) (by decide)).1⟩

/-- C4: for a death event whose inspect fails, the supervisor issues no
remove, create or start (the inspect is the only call), does not panic,
and the loop proceeds to the next event. -/
theorem inspect_failure_skips_event (eng : Engine) (get : Registry)
    (ev : APIEvent)
    (hdie : ev.status = dieStatus)
    (hins : eng.inspect ev.id = none) :
    (processEvent eng get ev).calls = [.inspect ev.id] ∧
    (processEvent eng get ev).panicked = false ∧
    (∀ evs, monitorEvents eng get (ev :: evs) =
      .prepend [.inspect ev.id] [.inspectFailed ev.id] (monitorEvents eng get evs)) := by
  have h : processEvent eng get ev = ⟨[.inspect ev.id], [.inspectFailed ev.id], false⟩ := by
    simp [processEvent, hdie, hins]
  refine ⟨by simp [h], by simp [h], fun evs => ?_⟩
  have := monitorEvents_cons eng get ev evs (by simp [h])
  simpa [h] using this

/-- C4 witness: the theorem applied at the concrete fixture whose inspect
always fails. -/
theorem inspect_failure_skips_event_witness :
    engInspectFail.inspect evW.id = none ∧
    (processEvent engInspectFail regW evW).calls = [.inspect evW.id] :=
  ⟨by decide,
   (inspect_failure_skips_event engInspectFail regW evW (by decide) (by decide)).1⟩

/-- C5: when the create call fails after a successful remove, the
supervisor issues no start call, the event is dropped without panic, and
processing continues with the next event. -/
theorem create_failure_no_start (eng : Engine) (get : Registry)
    (ev : APIEvent) (container : Container) (c : Char) (nrest : GoStr) (d : Config)
    (hdie : ev.status = dieStatus)
    (hins : eng.inspect ev.id = some container)
    (hname : container.name = c :: nrest)
    (hget : get nrest = some d)
    (hrm : eng.removeOk container.id = true)
    (hcr : eng.create nrest d = none) :
    (processEvent eng get ev).calls =
      [.inspect ev.id, .remove container.id, .create nrest d] ∧
    (∀ i hc, EngineCall.start i hc ∉ (processEvent eng get ev).calls) ∧
    (processEvent eng get ev).panicked = false ∧
    (∀ evs, monitorEvents eng get (ev :: evs) =
      .prepend [.inspect ev.id, .remove container.id, .create nrest d]
        [.createFailed] (monitorEvents eng get evs)) := by
  have h : processEvent eng get ev =
      ⟨[.inspect ev.id, .remove container.id, .create nrest d], [.createFailed], false⟩ := by
    simp [processEvent, hdie, hins, hname, supervisedName, hget, hrm, hcr]
  refine ⟨by simp [h], by simp [h], by simp [h], fun evs => ?_⟩
  have := monitorEvents_cons eng get ev evs (by simp [h])
  simpa [h] using this

/-- C5 witness: the theorem applied at the concrete fixture whose create
always fails. -/
theorem create_failure_no_start_witness :
    engCreateFail.create nameW docW = none ∧
    (∀ i hc, EngineCall.start i hc ∉ (processEvent engCreateFail regW evW).calls) :=
  ⟨by decide,
   (create_failure_no_start engCreateFail regW evW contW '/' nameW docW
      (by decide) (by decide) (by decide) (by decide) (by decide) (by decide)).2.1⟩

/-- C6: an event whose status tag is not "die" produces no engine calls
at all (not even an inspect) and no logs, and the outcome is independent
of both the engine oracle and the registry — the registry is never
consulted. -/
theorem non_die_event_ignored (eng : Engine) (get : Registry) (ev : APIEvent)
    (h : ev.status ≠ dieStatus) :
    processEvent eng get ev = ⟨[], [], false⟩ ∧
    (∀ (eng2 : Engine) (get2 : Registry),
      processEvent eng get ev = processEvent eng2 get2 ev) := by
  constructor
  · simp [processEvent, h]
  · intro eng2 get2
    simp [processEvent, h]

/-- C6 witness: the theorem applied at a concrete non-"die" event. -/
theorem non_die_event_ignored_witness :
    (⟨['e'], ['u', 'p']⟩ : APIEvent).status ≠ dieStatus ∧
    processEvent engW regW ⟨['e'], ['u', 'p']⟩ = ⟨[], [], false⟩ :=
  ⟨by decide, (non_die_event_ignored engW regW ⟨['e'], ['u', 'p']⟩ (by decide)).1⟩

/-- C7: loss of the event feed is fatal, and only it is.  If the
event-listener subscription fails at startup, `main` reaches the fatal
exit at line 70; and on any finite feed in which no event panics, the
monitor loop processes every event — whatever engine-call failures occur
— and terminates the process with the fatal log only once the feed
closes. -/
theorem feed_loss_fatal :
    (∀ env : MainEnv, env.clientOk = true → env.subscribeOk = false →
      (mainStartup env).1 = .fatalSubscribe
        (if env.persistDirExists then some persistDirDefault else none)) ∧
    (∀ (eng : Engine) (get : Registry) (evs : List APIEvent),
      (∀ ev ∈ evs, (processEvent eng get ev).panicked = false) →
      monitorEvents eng get evs =
        .fatal ((evs.map fun e => (processEvent eng get e).calls).flatten)
          ((evs.map fun e => (processEvent eng get e).logs).flatten ++
            [.fatalMonitorClosed])) := by
  constructor
  · intro env hc hs
    simp [mainStartup, hc, hs]
  · intro eng get evs h
    induction evs with
    | nil => simp [monitorEvents]
    | cons ev rest ih =>
      have hp : (processEvent eng get ev).panicked = false := h ev (by simp)
      have hrest := ih fun e he => h e (by simp [he])
      rw [monitorEvents_cons eng get ev rest hp, hrest]
      simp [MonitorOutcome.prepend]

/-- C7 witness: the theorem applied at a concrete startup environment
with a failing subscription, and at a concrete one-event feed. -/
theorem feed_loss_fatal_witness :
    ((⟨true, true, true, false⟩ : MainEnv).subscribeOk = false ∧
      (mainStartup ⟨true, true, true, false⟩).1 = .fatalSubscribe
        (if (⟨true, true, true, false⟩ : MainEnv).persistDirExists then
          some persistDirDefault else none)) ∧
    ((∀ ev ∈ [evW], (processEvent engW regW ev).panicked = false) ∧
      monitorEvents engW regW [evW] =
        .fatal (([evW].map fun e => (processEvent engW regW e).calls).flatten)
          (([evW].map fun e => (processEvent engW regW e).logs).flatten ++
            [.fatalMonitorClosed])) :=
  ⟨⟨rfl, feed_loss_fatal.1 ⟨true, true, true, false⟩ rfl rfl⟩,
   ⟨by decide, feed_loss_fatal.2 engW regW [evW] (by decide)⟩⟩

/-- C8: when the persistence directory does not exist at process start,
startup does not fail: `main` logs the warning, picks no persister
(memory-only mode) and, with the other startup steps succeeding, reaches
the running state. -/
theorem missing_persist_dir_memory_only (env : MainEnv)
    (hc : env.clientOk = true) (hd : env.persistDirExists = false)
    (hs : env.subscribeOk = true) :
    mainStartup env = (.running none, [.warnNoPersistDir]) := by
  simp [mainStartup, hc, hd, hs]

/-- C8 witness: the theorem applied at the concrete environment with a
missing persistence directory. -/
theorem missing_persist_dir_memory_only_witness :
    (⟨true, false, true, true⟩ : MainEnv).persistDirExists = false ∧
    mainStartup ⟨true, false, true, true⟩ = (.running none, [.warnNoPersistDir]) :=
  ⟨rfl, missing_persist_dir_memory_only ⟨true, false, true, true⟩ rfl rfl rfl⟩

/-- C9: a registration request whose trimmed name is already in the
registry is rejected before reaching the store: no `Add` is made, the
mapping is unchanged, and the caller is redirected (303) to the existing
entry; and an `Add` happens only when the name is absent and the engine
inspect succeeds, with the inspected container's trimmed name and
config. -/
theorem register_existing_rejected_before_store (formId : GoStr) (reg : Registry)
    (ins : GoStr → Option Container) (d : Config)
    (hpresent : reg (trimSlashes formId) = some d) :
    (handlePost true formId reg ins).addCall = none ∧
    (∀ k, handlePostRegistry true formId reg ins k = reg k) ∧
    (trimSlashes formId ≠ [] →
      (handlePost true formId reg ins).resp =
        PostResponse.seeOther ('/' :: trimSlashes formId)) ∧
    (∀ (pOk : Bool) (fId n : GoStr) (dd : Config),
      (handlePost pOk fId reg ins).addCall = some (n, dd) →
      reg (trimSlashes fId) = none ∧
      ∃ cont, ins (trimSlashes fId) = some cont ∧
        n = trimSlashes cont.name ∧ dd = cont.config) := by
  have h1 : (handlePost true formId reg ins).addCall = none := by
    by_cases hemp : trimSlashes formId = []
    · simp [handlePost, hemp]
    · simp [handlePost, hemp, hpresent]
  refine ⟨h1, ?_, ?_, ?_⟩
  · intro k
    simp [handlePostRegistry, h1]
  · intro hne
    simp [handlePost, hne, hpresent]
  · intro pOk fId n dd h
    by_cases hp : pOk = true
    · subst hp
      by_cases hemp : trimSlashes fId = []
      · simp [handlePost, hemp] at h
      · rcases hreg : reg (trimSlashes fId) with _ | d2
        · rcases hins : ins (trimSlashes fId) with _ | cont
          · simp [handlePost, hemp, hreg, hins] at h
          · refine ⟨rfl, cont, rfl, ?_⟩
            simp [handlePost, hemp, hreg, hins] at h
            exact ⟨h.1.symm, h.2.symm⟩
        · simp [handlePost, hemp, hreg] at h
    · have hp2 : pOk = false := by simpa using hp
      subst hp2
      simp [handlePost] at h

/-- Fixture: inspect-by-name oracle answering only for `nameW`. -/
def insW : GoStr → Option Container := fun n => if n = nameW then some contW else none

/-- C9 witness: the theorem applied at the concrete fixture where `nameW`
is already registered. -/
theorem register_existing_rejected_before_store_witness :
    regW (trimSlashes nameW) = some docW ∧
    (handlePost true nameW regW insW).addCall = none :=
  ⟨by decide,
   (register_existing_rejected_before_store nameW regW insW docW (by decide)).1⟩

/-- C10: deriving the supervised name drops the first character of the
inspected name unconditionally: on the empty name the slice `Name[1:]`
panics (the iteration's outcome is `panicked`), and on any non-empty name
`c :: rest` — whether or not `c` is the path separator — the registry is
consulted at `rest`, so a name not beginning with a slash loses its first
character. -/
theorem name_slice_unconditional :
    supervisedName [] = none ∧
    (∀ (c : Char) (rest : GoStr), supervisedName (c :: rest) = some rest) ∧
    (∀ (eng : Engine) (get : Registry) (ev : APIEvent) (container : Container),
      ev.status = dieStatus → eng.inspect ev.id = some container →
      container.name = [] →
      processEvent eng get ev = ⟨[.inspect ev.id], [], true⟩) ∧
    (∀ (eng : Engine) (get : Registry) (ev : APIEvent) (container : Container)
        (c : Char) (rest : GoStr),
      ev.status = dieStatus → eng.inspect ev.id = some container →
      container.name = c :: rest → get rest = none →
      (processEvent eng get ev).calls = [.inspect ev.id]) := by
  refine ⟨rfl, fun c rest => rfl, ?_, ?_⟩
  · intro eng get ev container hdie hins hname
    simp [processEvent, hdie, hins, hname, supervisedName]
  · intro eng get ev container c rest hdie hins hname hget
    simp [processEvent, hdie, hins, hname, supervisedName, hget]

/-- C10 witness: the theorem applied at the concrete fixture whose
inspected container carries the empty name. -/
theorem name_slice_unconditional_witness :
    engEmptyName.inspect evW.id = some ⟨idI1, [], ['c'], hostW⟩ ∧
    processEvent engEmptyName regW evW = ⟨[.inspect evW.id], [], true⟩ :=
  ⟨by decide,
   name_slice_unconditional.2.2.1 engEmptyName regW evW ⟨idI1, [], ['c'], hostW⟩
     (by decide) (by decide) rfl⟩

end DockerSupervise
